import Mathlib

/-!
Verification of the pyannote-rs HTTP sidecar
(src/desktop/sidecar/pyannote-rs-server/src/main.rs).

Shallow embedding conventions:
* Rust `i64` values are modelled as `Int` (no claim depends on 64-bit
  wraparound; the source relies on values staying far from the bounds).
* Rust `f64` fractional-second timestamps are modelled as `Rat`; the
  `f64::round` operation (round half away from zero) is `rustRound`.
* Fallible Rust functions returning `Result<_, AppError>` become
  `Except AppError _`.
* The external capabilities (the `base64` engine, the pyannote-rs
  segmentation / embedding / clustering crate) are not part of the source
  tree; they are modelled from the spec, as marked on each definition, and
  theorems quantify over the abstract capability operations.
-/

namespace PyannoteServer

/-- HTTP status class of an `AppError` (source lines 79-99): the code only
distinguishes `BAD_REQUEST` from `INTERNAL_SERVER_ERROR`. -/
inductive Status where
  | badRequest
  | internal
deriving DecidableEq, Repr

/-- Source `struct AppError { status, message }`. -/
structure AppError where
  status : Status
  message : String
deriving DecidableEq, Repr

/-- Source `AppError::bad_request`. -/
def AppError.bad_request (message : String) : AppError :=
  ⟨Status.badRequest, message⟩

/-- Source `AppError.internal`. -/
def AppError.internal (message : String) : AppError :=
  ⟨Status.internal, message⟩

/-- Rust `f64::round` (round half away from zero), on exact rationals. -/
def rustRound (q : ℚ) : ℤ :=
  if 0 ≤ q then ⌊q + 1/2⌋ else ⌈q - 1/2⌉

/-- Rust `f32::clamp lo hi` on exact rationals (`lo ≤ hi` at use sites). -/
def clampQ (q lo hi : ℚ) : ℚ :=
  min (max q lo) hi

/-- Modelled from the spec: value of one character of the standard base64
alphabet used by the external base64 crate (`STANDARD` engine). -/
def b64Val (c : Char) : Option ℕ :=
  if 65 ≤ c.toNat ∧ c.toNat ≤ 90 then some (c.toNat - 65)
  else if 97 ≤ c.toNat ∧ c.toNat ≤ 122 then some (c.toNat - 71)
  else if 48 ≤ c.toNat ∧ c.toNat ≤ 57 then some (c.toNat + 4)
  else if c = '+' then some 62
  else if c = '/' then some 63
  else none

/-- Modelled from the spec: chunkwise decoder of the external base64 crate
(`STANDARD` engine: canonical padding, trailing bits must be zero).
Bytes are represented as natural numbers below 256. -/
def b64DecodeChunks : List Char → Option (List ℕ)
  | [] => some []
  | c0 :: c1 :: c2 :: c3 :: rest =>
    match b64Val c0, b64Val c1 with
    | some v0, some v1 =>
      if c2 = '=' then
        if c3 = '=' ∧ rest = [] ∧ v1 % 16 = 0 then some [v0 * 4 + v1 / 16]
        else none
      else
        match b64Val c2 with
        | some v2 =>
          if c3 = '=' then
            if rest = [] ∧ v2 % 4 = 0 then
              some [v0 * 4 + v1 / 16, (v1 % 16) * 16 + v2 / 4]
            else none
          else
            match b64Val c3 with
            | some v3 =>
              (b64DecodeChunks rest).map
                (fun bs => (v0 * 4 + v1 / 16) :: ((v1 % 16) * 16 + v2 / 4) ::
                  ((v2 % 4) * 64 + v3) :: bs)
            | none => none
        | none => none
    | _, _ => none
  | _ => none

/-- Modelled from the spec: `BASE64_STANDARD.decode` of the external base64
crate; `none` is the crate's decode error ("the string is not valid
base64"). -/
def base64Decode (s : String) : Option (List ℕ) :=
  b64DecodeChunks s.data

/-- Rust `i16::from_le_bytes [b0, b1]`: the signed 16-bit value of a
little-endian byte pair, as an integer. -/
def s16le (b0 b1 : ℕ) : ℤ :=
  let v : ℕ := (b0 + 256 * b1) % 65536
  if v < 32768 then (v : ℤ) else (v : ℤ) - 65536

/-- The sample-building loop of `decode_pcm_s16le` (source lines 163-167):
one signed 16-bit little-endian sample per consecutive byte pair. -/
def pcmSamples : List ℕ → List ℤ
  | b0 :: b1 :: rest => s16le b0 b1 :: pcmSamples rest
  | _ => []

/-- Source `decode_pcm_s16le` (lines 151-168). -/
def decode_pcm_s16le (content_b64 : String) : Except AppError (List ℤ) :=
  match base64Decode content_b64 with
  | none => Except.error (AppError.bad_request ("invalid base64 pcm payload"))
  | some bytes =>
    if bytes.length = 0 then
      Except.error (AppError.bad_request ("content_b64 decoded to empty payload"))
    else if bytes.length % 2 ≠ 0 then
      Except.error (AppError.bad_request ("pcm payload must contain even number of bytes"))
    else
      Except.ok (pcmSamples bytes)

/-- Modelled from the spec: a `pyannote_rs::Segment` — model-local start and
end offsets in fractional seconds (order not guaranteed) plus the raw
sample slice.  The source field named `end` is `stop` here (`end` is a
reserved word in Lean). -/
structure Segment where
  start : ℚ
  stop : ℚ
  samples : List ℤ
deriving DecidableEq

/-- Source `struct Track` (lines 133-141). -/
structure Track where
  speaker_id : String
  start_ms : ℤ
  end_ms : ℤ
  duration_ms : ℤ
  local_start_ms : ℤ
  local_end_ms : ℤ
deriving DecidableEq, Repr

/-- The speaker label formatting `format!("edge_spk_{speaker_id}")` of
`map_segment_to_track` (source line 218). -/
def speakerTag (speaker_id : ℕ) : String :=
  "edge_spk_" ++ toString speaker_id

/-- Source `map_segment_to_track` (lines 199-225). -/
def map_segment_to_track (segment : Segment) (window_start_ms window_end_ms : ℤ)
    (speaker_id : ℕ) : Track :=
  let l0 : ℤ := rustRound (segment.start * 1000)
  let l1 : ℤ := rustRound (segment.stop * 1000)
  let local_start_ms : ℤ := if l1 < l0 then l1 else l0
  let local_end_ms : ℤ := if l1 < l0 then l0 else l1
  let s0 : ℤ := window_start_ms + local_start_ms
  let e0 : ℤ := window_start_ms + local_end_ms
  let start0 : ℤ := if e0 < s0 then e0 else s0
  let end0 : ℤ := if e0 < s0 then s0 else e0
  let start_ms : ℤ := max start0 window_start_ms
  let end_ms : ℤ := max (min end0 window_end_ms) start_ms
  { speaker_id := speakerTag speaker_id
    start_ms := start_ms
    end_ms := end_ms
    duration_ms := max (end_ms - start_ms) 0
    local_start_ms := max local_start_ms 0
    local_end_ms := max local_end_ms (max local_start_ms 0) }

/-- The sort order of `merge_adjacent_tracks` (source line 179):
`a.start_ms.cmp(&b.start_ms).then(a.end_ms.cmp(&b.end_ms))` as a boolean
"less or equal". -/
def trackLe (a b : Track) : Bool :=
  decide (a.start_ms < b.start_ms ∨ (a.start_ms = b.start_ms ∧ a.end_ms ≤ b.end_ms))

/-- One step of the merge fold of `merge_adjacent_tracks` (source lines
182-194).  The accumulator is kept reversed: its head is the last emitted
track (`merged.last_mut()` in the source). -/
def mergeFold (acc : List Track) (current : Track) : List Track :=
  match acc with
  | [] => [current]
  | last :: rest =>
    if last.speaker_id = current.speaker_id ∧ current.start_ms - last.end_ms ≤ 250 then
      { last with
          end_ms := max last.end_ms current.end_ms
          local_end_ms := max last.local_end_ms current.local_end_ms
          duration_ms := max (max last.end_ms current.end_ms - last.start_ms) 0 } :: rest
    else
      current :: last :: rest

/-- Source `merge_adjacent_tracks` (lines 174-197): sort by
`(start_ms, end_ms)` ascending (stable), then fold left to right merging
same-speaker tracks whose gap is at most 250 ms. -/
def merge_adjacent_tracks (tracks : List Track) : List Track :=
  if tracks.length ≤ 1 then tracks
  else ((tracks.mergeSort trackLe).foldl mergeFold []).reverse

/-- Modelled from the spec: the external clustering state
(`pyannote_rs::EmbeddingManager`): a speaker registry capped at
`maxSpeakers` distinct speakers; capacity is fixed at creation
(`EmbeddingManager::new`), and a fresh state has no registered speakers. -/
structure EmbeddingManager where
  maxSpeakers : ℕ
  speakers : List (ℕ × List ℚ)
deriving DecidableEq

/-- Modelled from the spec: `EmbeddingManager::new(max_speakers)` — a fresh
clustering state with the given capacity and an empty speaker registry. -/
def EmbeddingManager.new (maxSpeakers : ℕ) : EmbeddingManager :=
  ⟨maxSpeakers, []⟩

/-- Modelled from the spec: the two query operations of the external
clustering capability, kept abstract (theorems quantify over them).
`search` is `search_speaker(embedding, threshold)`; `bestMatch` is
`get_best_speaker_match(embedding)`, which may register a new speaker
(returning the updated speaker registry) but never alters the capacity. -/
structure ClusteringOps where
  search : EmbeddingManager → List ℚ → ℚ → Option ℕ
  bestMatch : EmbeddingManager → List ℚ → Option ℕ × List (ℕ × List ℚ)

/-- Source `struct SessionState` (lines 65-69). -/
structure SessionState where
  manager : EmbeddingManager
  last_seen_ms : ℤ
deriving DecidableEq

/-- The source `HashMap<String, SessionState>` session table, modelled as an
association list with unique keys. -/
abbrev Sessions := List (String × SessionState)

/-- `HashMap` lookup on the association-list model. -/
def findSession : Sessions → String → Option SessionState
  | [], _ => none
  | (k, st) :: rest, key => if k = key then some st else findSession rest key

/-- `HashMap` insert-or-replace on the association-list model. -/
def setSession : Sessions → String → SessionState → Sessions
  | [], key, st => [(key, st)]
  | (k, s0) :: rest, key, st =>
    if k = key then (key, st) :: rest else (k, s0) :: setSession rest key st

/-- The lazy expiry sweep of `diarize` (source line 303):
`sessions.retain(|_, item| now_ms - item.last_seen_ms <= session_ttl_ms)`. -/
def sweepSessions (session_ttl_ms now_ms : ℤ) (sessions : Sessions) : Sessions :=
  sessions.filter (fun p => now_ms - p.2.last_seen_ms ≤ session_ttl_ms)

/-- The session-table access of `diarize` (source lines 300-312): sweep
expired sessions, look up or create the entry for `session_id`
(`entry(..).or_insert_with(..)` with a fresh `EmbeddingManager` capped at
`req.max_speakers.unwrap_or(config.max_speakers)`), and bump
`last_seen_ms` to `now_ms`.  Returns the touched state and the table. -/
def touchSession (config_max_speakers : ℕ) (req_max_speakers : Option ℕ)
    (session_ttl_ms now_ms : ℤ) (session_id : String) (sessions : Sessions) :
    SessionState × Sessions :=
  let swept := sweepSessions session_ttl_ms now_ms sessions
  match findSession swept session_id with
  | some st =>
    let st := { st with last_seen_ms := now_ms }
    (st, setSession swept session_id st)
  | none =>
    let st : SessionState := ⟨EmbeddingManager.new (req_max_speakers.getD config_max_speakers), now_ms⟩
    (st, setSession swept session_id st)

/-- The speaker-resolution block of `diarize` (source lines 299-322): touch
the session, then `search_speaker(embedding, threshold)`, else
`get_best_speaker_match(embedding).unwrap_or(0)` (writing back the possibly
mutated clustering state). -/
def resolveSpeaker (ops : ClusteringOps) (config_max_speakers : ℕ)
    (req_max_speakers : Option ℕ) (session_ttl_ms now_ms : ℤ)
    (session_id : String) (embedding : List ℚ) (threshold : ℚ)
    (sessions : Sessions) : ℕ × Sessions :=
  let t := touchSession config_max_speakers req_max_speakers session_ttl_ms now_ms session_id sessions
  match ops.search t.1.manager embedding threshold with
  | some id => (id, t.2)
  | none =>
    let b := ops.bestMatch t.1.manager embedding
    (b.1.getD 0,
      setSession t.2 session_id { t.1 with manager := { t.1.manager with speakers := b.2 } })

/-- Rust `str::trim` (remove leading and trailing whitespace), modelled on
the character list (Lean's own `String.trim` is byte-position based and is
not kernel-reducible). -/
def rustTrim (s : String) : String :=
  ⟨((s.data.dropWhile Char.isWhitespace).reverse.dropWhile Char.isWhitespace).reverse⟩

/-- Source `struct DiarizeRequest` (lines 108-116).  `sample_rate` is `u32`
(so "non-positive" means zero), `start_end_ms` is `[i64; 2]`. -/
structure DiarizeRequest where
  session_id : String
  content_b64 : String
  sample_rate : Option ℕ
  start_end_ms : Option (ℤ × ℤ)
  threshold : Option ℚ
  max_speakers : Option ℕ

/-- Source `struct DiarizeResponse` (lines 126-131). -/
structure DiarizeResponse where
  session_id : String
  tracks : List Track
  warnings : List String
deriving DecidableEq

/-- The server-wide part of source `struct Config` that `diarize` reads
(lines 56-63; the model paths play no role in the claims). -/
structure Config where
  max_speakers : ℕ
  threshold : ℚ
  session_ttl_ms : ℤ

/-- The fields of source `struct ServeArgs` that feed `Config`
(lines 32-54): `max_speakers : usize`, `threshold : f32`,
`session_ttl_sec : u64`. -/
structure ServeArgs where
  max_speakers : ℕ
  threshold : ℚ
  session_ttl_sec : ℕ

/-- The `Config` construction in `serve` (source lines 393-399):
`max_speakers.max(1)`, `threshold.clamp(0.0, 1.0)`,
`Duration::from_secs(session_ttl_sec.max(60)).as_millis() as i64`. -/
def mkConfig (args : ServeArgs) : Config :=
  { max_speakers := max args.max_speakers 1
    threshold := clampQ args.threshold 0 1
    session_ttl_ms := ((max args.session_ttl_sec 60) * 1000 : ℕ) }

/-- The per-segment loop of `diarize` (source lines 278-335).  The external
capabilities appear as arguments: `embed` is the embedding extractor
(`extractor.compute`, already serialized behind its mutex — an internal
error fails the whole request), `ops` the clustering operations, and
`clock` gives the value of `current_epoch_ms()` at the i-th segment.
Accumulates `tracks` and `warnings` in order and threads the session
table. -/
def diarizeSegments (ops : ClusteringOps) (config : Config)
    (embed : List ℤ → Except String (List ℚ)) (clock : ℕ → ℤ)
    (session_id : String) (threshold : ℚ) (req_max_speakers : Option ℕ)
    (window_start_ms window_end_ms : ℤ) :
    List (Except String Segment) → ℕ → Sessions → List Track → List String →
    Except AppError (List Track × List String × Sessions)
  | [], _, sessions, tracks, warnings => Except.ok (tracks, warnings, sessions)
  | Except.error e :: rest, i, sessions, tracks, warnings =>
    diarizeSegments ops config embed clock session_id threshold req_max_speakers
      window_start_ms window_end_ms rest (i + 1) sessions tracks
      (warnings ++ [("segment skipped: " ++ e)])
  | Except.ok segment :: rest, i, sessions, tracks, warnings =>
    if segment.samples = [] then
      diarizeSegments ops config embed clock session_id threshold req_max_speakers
        window_start_ms window_end_ms rest (i + 1) sessions tracks warnings
    else
      match embed segment.samples with
      | Except.error e => Except.error (AppError.internal ("embedding failed: " ++ e))
      | Except.ok embedding =>
        let r := resolveSpeaker ops config.max_speakers req_max_speakers
          config.session_ttl_ms (clock i) session_id embedding threshold sessions
        if r.1 = 0 then
          diarizeSegments ops config embed clock session_id threshold req_max_speakers
            window_start_ms window_end_ms rest (i + 1) r.2 tracks
            (warnings ++ [("speaker assignment returned 0, segment dropped")])
        else
          diarizeSegments ops config embed clock session_id threshold req_max_speakers
            window_start_ms window_end_ms rest (i + 1) r.2
            (tracks ++ [map_segment_to_track segment window_start_ms window_end_ms r.1])
            warnings

/-- The post-decode part of `diarize` (source lines 256-343): window-bound
computation/validation, segmentation (`get_segments`, whose wholesale
failure is an internal error), the per-segment loop, stitching, and
response assembly. -/
def diarizeWithSamples (ops : ClusteringOps) (config : Config)
    (get_segments : List ℤ → ℕ → Except String (List (Except String Segment)))
    (embed : List ℤ → Except String (List ℚ)) (clock : ℕ → ℤ)
    (sessions : Sessions) (session_id : String) (sample_rate : ℕ)
    (threshold : ℚ) (req_max_speakers : Option ℕ)
    (start_end_ms : Option (ℤ × ℤ)) (samples : List ℤ) :
    Except AppError (DiarizeResponse × Sessions) :=
  let window_duration_ms : ℤ :=
    rustRound (((samples.length : ℚ) / (sample_rate : ℚ)) * 1000)
  let bounds : Except AppError (ℤ × ℤ) :=
    match start_end_ms with
    | some (s, e) =>
      if 0 ≤ s ∧ s ≤ e then Except.ok (s, e)
      else Except.error (AppError.bad_request ("start_end_ms must be [start,end] and end >= start"))
    | none => Except.ok (0, max window_duration_ms 0)
  match bounds with
  | Except.error e => Except.error e
  | Except.ok (window_start_ms, window_end_ms) =>
    match get_segments samples sample_rate with
    | Except.error e => Except.error (AppError.internal ("segmentation failed: " ++ e))
    | Except.ok segs =>
      match diarizeSegments ops config embed clock session_id threshold req_max_speakers
          window_start_ms window_end_ms segs 0 sessions [] [] with
      | Except.error e => Except.error e
      | Except.ok (tracks, warnings, sessions1) =>
        Except.ok
          ({ session_id := session_id
             tracks := merge_adjacent_tracks tracks
             warnings := warnings }, sessions1)

/-- Source `diarize` handler (lines 236-344): request validation followed by
`diarizeWithSamples`.  External capabilities and the clock are explicit
arguments; the session table is threaded in and out in place of the shared
`Mutex<HashMap<..>>`. -/
def diarize (ops : ClusteringOps) (config : Config)
    (get_segments : List ℤ → ℕ → Except String (List (Except String Segment)))
    (embed : List ℤ → Except String (List ℚ)) (clock : ℕ → ℤ)
    (sessions : Sessions) (req : DiarizeRequest) :
    Except AppError (DiarizeResponse × Sessions) :=
  let session_id := rustTrim req.session_id
  if session_id = "" then
    Except.error (AppError.bad_request ("session_id is required"))
  else
    let sample_rate := req.sample_rate.getD 16000
    if sample_rate = 0 then
      Except.error (AppError.bad_request ("sample_rate must be positive"))
    else
      let threshold := clampQ (req.threshold.getD config.threshold) 0 1
      match decode_pcm_s16le req.content_b64 with
      | Except.error e => Except.error e
      | Except.ok samples =>
        diarizeWithSamples ops config get_segments embed clock sessions session_id
          sample_rate threshold req.max_speakers req.start_end_ms samples

/-! ## Timeline mapper: general bounds -/

/-- Core facts about `map_segment_to_track`: the absolute range is ordered and
starts no earlier than the window start, the end is clamped to the window end
except when even the clamped start lies beyond it, the duration is the exact
difference, and the reported local range is ordered and floored at zero. -/
theorem map_segment_to_track_bounds (segment : Segment)
    (window_start_ms window_end_ms : ℤ) (speaker_id : ℕ) :
    window_start_ms ≤ (map_segment_to_track segment window_start_ms window_end_ms speaker_id).start_ms ∧
    (map_segment_to_track segment window_start_ms window_end_ms speaker_id).start_ms ≤
      (map_segment_to_track segment window_start_ms window_end_ms speaker_id).end_ms ∧
    (map_segment_to_track segment window_start_ms window_end_ms speaker_id).end_ms ≤
      max window_end_ms (map_segment_to_track segment window_start_ms window_end_ms speaker_id).start_ms ∧
    (map_segment_to_track segment window_start_ms window_end_ms speaker_id).duration_ms =
      (map_segment_to_track segment window_start_ms window_end_ms speaker_id).end_ms -
      (map_segment_to_track segment window_start_ms window_end_ms speaker_id).start_ms ∧
    0 ≤ (map_segment_to_track segment window_start_ms window_end_ms speaker_id).local_start_ms ∧
    (map_segment_to_track segment window_start_ms window_end_ms speaker_id).local_start_ms ≤
      (map_segment_to_track segment window_start_ms window_end_ms speaker_id).local_end_ms := by
  simp only [map_segment_to_track]
  split_ifs <;>
    exact ⟨by omega, by omega, by omega, by omega, by omega, by omega⟩

/-- C1, counterexample: under window `[0, 1000]` (so `ws ≤ we`), the segment
`[2.0, 3.0]` — entirely beyond the window end — maps to a track with
`end_ms = 2000 > we`: the code clamps the end to the window end but then
raises it back to the (unclamped-above) start, so `end_ms ≤ we` fails. -/
theorem C1_counterexample :
    (0 : ℤ) ≤ 1000 ∧
    ¬ (map_segment_to_track ⟨2, 3, [0]⟩ 0 1000 1).end_ms ≤ 1000 := by
  constructor
  · norm_num
  · have h : map_segment_to_track ⟨2, 3, [0]⟩ 0 1000 1 =
        ⟨"edge_spk_1", 2000, 2000, 0, 2000, 3000⟩ := by
      simp only [map_segment_to_track, rustRound, speakerTag]
      norm_num
      rfl
    rw [h]
    norm_num

/-- C1, amended: for every segment and window bounds `ws ≤ we`, the mapped
track satisfies `ws ≤ start_ms ≤ end_ms` and
`duration_ms = end_ms - start_ms`; the end is within the window
(`end_ms ≤ we`) except when even the clamped start exceeds the window end,
i.e. `end_ms ≤ max we start_ms` always holds (and so `end_ms ≤ we` whenever
`start_ms ≤ we`). -/
theorem C1_window_clamp (segment : Segment) (ws we : ℤ) (speaker_id : ℕ)
    (_hw : ws ≤ we) :
    ws ≤ (map_segment_to_track segment ws we speaker_id).start_ms ∧
    (map_segment_to_track segment ws we speaker_id).start_ms ≤
      (map_segment_to_track segment ws we speaker_id).end_ms ∧
    (map_segment_to_track segment ws we speaker_id).end_ms ≤
      max we (map_segment_to_track segment ws we speaker_id).start_ms ∧
    ((map_segment_to_track segment ws we speaker_id).start_ms ≤ we →
      (map_segment_to_track segment ws we speaker_id).end_ms ≤ we) ∧
    (map_segment_to_track segment ws we speaker_id).duration_ms =
      (map_segment_to_track segment ws we speaker_id).end_ms -
      (map_segment_to_track segment ws we speaker_id).start_ms := by
  obtain ⟨h1, h2, h3, h4, -⟩ := map_segment_to_track_bounds segment ws we speaker_id
  exact ⟨h1, h2, h3, fun h => by omega, h4⟩

/-- C1, witness: the amended statement applied to the in-window segment
`[0.1, 0.4]` under window `[0, 1000]`. -/
theorem C1_window_clamp_witness :
    (0 : ℤ) ≤ 1000 ∧
    ((0 : ℤ) ≤ (map_segment_to_track ⟨1/10, 4/10, [0]⟩ 0 1000 1).start_ms ∧
    (map_segment_to_track ⟨1/10, 4/10, [0]⟩ 0 1000 1).start_ms ≤
      (map_segment_to_track ⟨1/10, 4/10, [0]⟩ 0 1000 1).end_ms ∧
    (map_segment_to_track ⟨1/10, 4/10, [0]⟩ 0 1000 1).end_ms ≤
      max 1000 (map_segment_to_track ⟨1/10, 4/10, [0]⟩ 0 1000 1).start_ms ∧
    ((map_segment_to_track ⟨1/10, 4/10, [0]⟩ 0 1000 1).start_ms ≤ 1000 →
      (map_segment_to_track ⟨1/10, 4/10, [0]⟩ 0 1000 1).end_ms ≤ 1000) ∧
    (map_segment_to_track ⟨1/10, 4/10, [0]⟩ 0 1000 1).duration_ms =
      (map_segment_to_track ⟨1/10, 4/10, [0]⟩ 0 1000 1).end_ms -
      (map_segment_to_track ⟨1/10, 4/10, [0]⟩ 0 1000 1).start_ms) :=
  ⟨by norm_num, C1_window_clamp ⟨1/10, 4/10, [0]⟩ 0 1000 1 (by norm_num)⟩

/-- C6: a segment whose local start exceeds its local end is recovered by
swapping: the track is ordered (`start_ms ≤ end_ms`) and its reported local
range is floored at zero; in particular the inverted segment `[0.5, 0.3]`
under window `[0, 1000]` yields `start_ms = 300`, `end_ms = 500` (not
dropped), with `local_start_ms = 300`, `local_end_ms = 500`. -/
theorem C6_inverted_segment_swap :
    (∀ (segment : Segment) (ws we : ℤ) (speaker_id : ℕ),
      segment.stop < segment.start →
      (map_segment_to_track segment ws we speaker_id).start_ms ≤
        (map_segment_to_track segment ws we speaker_id).end_ms ∧
      0 ≤ (map_segment_to_track segment ws we speaker_id).local_start_ms ∧
      0 ≤ (map_segment_to_track segment ws we speaker_id).local_end_ms) ∧
    map_segment_to_track ⟨5/10, 3/10, [0]⟩ 0 1000 1 =
      ⟨"edge_spk_1", 300, 500, 200, 300, 500⟩ := by
  constructor
  · intro segment ws we speaker_id _
    obtain ⟨-, h2, -, -, h5, h6⟩ := map_segment_to_track_bounds segment ws we speaker_id
    exact ⟨h2, h5, by omega⟩
  · simp only [map_segment_to_track, rustRound, speakerTag]
    norm_num
    rfl

/-- C6, witness: the universally quantified part of `C6_inverted_segment_swap`
applied to the inverted segment `[0.5, 0.3]`. -/
theorem C6_inverted_segment_swap_witness :
    (3/10 : ℚ) < 5/10 ∧
    ((map_segment_to_track ⟨5/10, 3/10, [0]⟩ 0 1000 1).start_ms ≤
      (map_segment_to_track ⟨5/10, 3/10, [0]⟩ 0 1000 1).end_ms ∧
    0 ≤ (map_segment_to_track ⟨5/10, 3/10, [0]⟩ 0 1000 1).local_start_ms ∧
    0 ≤ (map_segment_to_track ⟨5/10, 3/10, [0]⟩ 0 1000 1).local_end_ms) :=
  ⟨by norm_num, C6_inverted_segment_swap.1 ⟨5/10, 3/10, [0]⟩ 0 1000 1 (by norm_num)⟩

/-! ## Audio decoder -/

theorem pcmSamples_length (l : List ℕ) : (pcmSamples l).length = l.length / 2 := by
  induction l using pcmSamples.induct with
  | case1 b0 b1 rest ih => simp only [pcmSamples, List.length_cons]; omega
  | case2 l h => cases l with
    | nil => simp [pcmSamples]
    | cons a t =>
      cases t with
      | nil => simp [pcmSamples]
      | cons b t2 => exact absurd rfl (h a b t2)

theorem pcmSamples_getD (l : List ℕ) (i : ℕ) (hi : i < (pcmSamples l).length) :
    (pcmSamples l).getD i 0 = s16le (l.getD (2 * i) 0) (l.getD (2 * i + 1) 0) := by
  induction l using pcmSamples.induct generalizing i with
  | case1 b0 b1 rest ih =>
    cases i with
    | zero => rfl
    | succ j =>
      have h2 : 2 * (j + 1) = 2 * j + 1 + 1 := by ring
      have h3 : 2 * (j + 1) + 1 = (2 * j + 1) + 1 + 1 := by ring
      simp only [pcmSamples, List.getD_cons_succ, h2, h3]
      exact ih j (by simpa [pcmSamples] using hi)
  | case2 l h => cases l with
    | nil => simp [pcmSamples] at hi
    | cons a t =>
      cases t with
      | nil => simp [pcmSamples] at hi
      | cons b t2 => exact absurd rfl (h a b t2)

theorem s16le_inj (b0 b1 c0 c1 : ℕ) (h0 : b0 < 256) (h1 : b1 < 256)
    (h2 : c0 < 256) (h3 : c1 < 256) (h : s16le b0 b1 = s16le c0 c1) :
    b0 = c0 ∧ b1 = c1 := by
  simp only [s16le] at h
  split_ifs at h <;> omega

/-- C5: `decode_pcm_s16le` succeeds exactly when the payload is valid base64
decoding to an even, nonzero byte count; every failure is a client
(bad-request) error; on success it returns one sample per byte pair —
`byteLength / 2` samples, sample `i` being the signed 16-bit little-endian
value of bytes `(2i, 2i+1)` — and the byte pair is recoverable from the
sample (losslessness). -/
theorem C5_decode_pcm_s16le (s : String) :
    ((∃ samples, decode_pcm_s16le s = Except.ok samples) ↔
      (∃ bytes, base64Decode s = some bytes ∧ bytes.length % 2 = 0 ∧ 2 ≤ bytes.length)) ∧
    (∀ e, decode_pcm_s16le s = Except.error e → e.status = Status.badRequest) ∧
    (∀ bytes, base64Decode s = some bytes → bytes.length % 2 = 0 → 2 ≤ bytes.length →
      decode_pcm_s16le s = Except.ok (pcmSamples bytes) ∧
      (pcmSamples bytes).length = bytes.length / 2 ∧
      (∀ i, i < (pcmSamples bytes).length →
        (pcmSamples bytes).getD i 0 =
          s16le (bytes.getD (2 * i) 0) (bytes.getD (2 * i + 1) 0))) ∧
    (∀ b0 b1 c0 c1 : ℕ, b0 < 256 → b1 < 256 → c0 < 256 → c1 < 256 →
      s16le b0 b1 = s16le c0 c1 → b0 = c0 ∧ b1 = c1) := by
  refine ⟨?_, ?_, ?_, s16le_inj⟩
  · unfold decode_pcm_s16le
    cases hb : base64Decode s with
    | none => simp
    | some bytes =>
      by_cases h0 : bytes.length = 0
      · simp [h0]
      · by_cases h1 : bytes.length % 2 = 0
        · simp only [h0, h1]
          simp only [if_neg h0, ite_not, if_pos rfl]
          constructor
          · intro _
            exact ⟨bytes, rfl, h1, by omega⟩
          · intro _
            exact ⟨pcmSamples bytes, by simp [h1]⟩
        · simp only [if_neg h0]
          constructor
          · rintro ⟨samples, hs⟩
            simp [h1] at hs
          · rintro ⟨bytes1, hb1, he, -⟩
            cases hb1
            exact absurd he h1
  · intro e he
    unfold decode_pcm_s16le at he
    cases hb : base64Decode s with
    | none =>
      rw [hb] at he
      cases he
      rfl
    | some bytes =>
      rw [hb] at he
      by_cases h0 : bytes.length = 0
      · simp [h0] at he
        cases he
        rfl
      · by_cases h1 : bytes.length % 2 = 0
        · simp [h0, h1] at he
        · simp [h0, h1] at he
          cases he
          rfl
  · intro bytes hb he hlen
    refine ⟨?_, pcmSamples_length bytes, pcmSamples_getD bytes⟩
    unfold decode_pcm_s16le
    rw [hb]
    simp only [if_neg (by omega : ¬ bytes.length = 0)]
    simp [he]

/-- C5, witness: the payload `"//8BAA=="` decodes to bytes
`[255, 255, 1, 0]`, hence to the two samples `[-1, 1]`. -/
theorem C5_decode_pcm_s16le_witness :
    base64Decode "//8BAA==" = some [255, 255, 1, 0] ∧
    decode_pcm_s16le "//8BAA==" = Except.ok (pcmSamples [255, 255, 1, 0]) ∧
    pcmSamples [255, 255, 1, 0] = [-1, 1] ∧
    (pcmSamples [255, 255, 1, 0]).length = 4 / 2 :=
  ⟨rfl,
   ((C5_decode_pcm_s16le "//8BAA==").2.2.1 [255, 255, 1, 0] rfl (by norm_num)
     (by norm_num)).1,
   rfl,
   by simpa using ((C5_decode_pcm_s16le "//8BAA==").2.2.1 [255, 255, 1, 0] rfl
     (by norm_num) (by norm_num)).2.1⟩

/-! ## Track stitcher -/

/-- Two consecutive tracks that the stitcher keeps separate: different
speakers, or a gap above the 250 ms tolerance. -/
def trackSep (a b : Track) : Prop :=
  ¬ (a.speaker_id = b.speaker_id ∧ b.start_ms - a.end_ms ≤ 250)

theorem trackLe_trans (a b c : Track) (hab : trackLe a b = true)
    (hbc : trackLe b c = true) : trackLe a c = true := by
  simp only [trackLe, decide_eq_true_eq] at *
  rcases hab with h | ⟨h1, h2⟩ <;> rcases hbc with g | ⟨g1, g2⟩ <;> omega

theorem trackLe_total (a b : Track) : (trackLe a b || trackLe b a) = true := by
  simp only [trackLe, Bool.or_eq_true, decide_eq_true_eq]
  omega

/-- The merged track produced by one merging step of the stitcher. -/
def mergeUnion (a b : Track) : Track :=
  { a with
      end_ms := max a.end_ms b.end_ms
      local_end_ms := max a.local_end_ms b.local_end_ms
      duration_ms := max (max a.end_ms b.end_ms - a.start_ms) 0 }

theorem mergeFold_cons (last : Track) (rest : List Track) (current : Track) :
    mergeFold (last :: rest) current =
      if last.speaker_id = current.speaker_id ∧ current.start_ms - last.end_ms ≤ 250 then
        mergeUnion last current :: rest
      else current :: last :: rest := rfl

/-- C7: after the `(start_ms, end_ms)`-ascending sort, the left-to-right fold
merges a two-track list into the single union track exactly when the
speakers agree and the gap is at most 250 ms, and keeps both tracks
otherwise. -/
theorem C7_two_track_stitch (t1 t2 : Track) (h : trackLe t1 t2 = true) :
    merge_adjacent_tracks [t1, t2] =
      if t1.speaker_id = t2.speaker_id ∧ t2.start_ms - t1.end_ms ≤ 250 then
        [mergeUnion t1 t2]
      else [t1, t2] := by
  have hsorted : List.Pairwise (fun a b => trackLe a b = true) [t1, t2] := by
    simp [h]
  unfold merge_adjacent_tracks
  rw [if_neg (by simp), List.mergeSort_of_sorted hsorted]
  simp only [List.foldl_cons, List.foldl_nil, mergeFold, mergeFold_cons]
  split_ifs with hc
  · simp [mergeUnion]
  · simp

/-- C7, witness: same speaker with gap 100 ms (≤ 250) merges into the union
track; same speaker with gap 300 ms (> 250) stays two tracks; different
speakers with gap 100 ms stay two tracks. -/
theorem C7_two_track_stitch_witness :
    trackLe ⟨"edge_spk_1", 0, 100, 100, 0, 100⟩ ⟨"edge_spk_1", 200, 400, 200, 200, 400⟩ = true ∧
    merge_adjacent_tracks
      [⟨"edge_spk_1", 0, 100, 100, 0, 100⟩, ⟨"edge_spk_1", 200, 400, 200, 200, 400⟩] =
      [⟨"edge_spk_1", 0, 400, 400, 0, 400⟩] ∧
    merge_adjacent_tracks
      [⟨"edge_spk_1", 0, 100, 100, 0, 100⟩, ⟨"edge_spk_1", 400, 500, 100, 400, 500⟩] =
      [⟨"edge_spk_1", 0, 100, 100, 0, 100⟩, ⟨"edge_spk_1", 400, 500, 100, 400, 500⟩] ∧
    merge_adjacent_tracks
      [⟨"edge_spk_1", 0, 100, 100, 0, 100⟩, ⟨"edge_spk_2", 200, 400, 200, 200, 400⟩] =
      [⟨"edge_spk_1", 0, 100, 100, 0, 100⟩, ⟨"edge_spk_2", 200, 400, 200, 200, 400⟩] := by
  refine ⟨by decide, ?_, ?_, ?_⟩
  · rw [C7_two_track_stitch _ _ (by decide)]
    decide
  · rw [C7_two_track_stitch _ _ (by decide)]
    decide
  · rw [C7_two_track_stitch _ _ (by decide)]
    decide

theorem trackLe_mergeUnion_right {a h cur : Track} (hah : trackLe a h = true) :
    trackLe a (mergeUnion h cur) = true := by
  cases a; cases h; cases cur
  simp only [trackLe, mergeUnion, decide_eq_true_eq] at *
  omega

theorem trackLe_mergeUnion_left {h cur t : Track} (hhc : trackLe h cur = true)
    (hht : trackLe h t = true) (hct : trackLe cur t = true) :
    trackLe (mergeUnion h cur) t = true := by
  cases h; cases cur; cases t
  simp only [trackLe, mergeUnion, decide_eq_true_eq] at *
  omega

theorem trackSep_mergeUnion {r h cur : Track} (hs : trackSep r h) :
    trackSep r (mergeUnion h cur) := by
  cases r; cases h; cases cur
  simp only [trackSep, mergeUnion, not_and] at *
  exact hs

/-- Invariant of the merge fold: starting from a reversed accumulator that is
reverse-sorted and reverse-separated and whose head is `trackLe`-below all
remaining input, folding a sorted input keeps both properties. -/
theorem mergeFold_invariant : ∀ (l acc : List Track),
    l.Pairwise (fun a b => trackLe a b = true) →
    (∀ a, acc.head? = some a → ∀ t ∈ l, trackLe a t = true) →
    acc.Pairwise (fun a b => trackLe b a = true) →
    acc.Chain' (fun a b => trackSep b a) →
    (l.foldl mergeFold acc).Pairwise (fun a b => trackLe b a = true) ∧
    (l.foldl mergeFold acc).Chain' (fun a b => trackSep b a) := by
  intro l
  induction l with
  | nil => intro acc _ _ h3 h4; exact ⟨h3, h4⟩
  | cons cur rest ih =>
    intro acc hpw hhead hsorted hsep
    rw [List.foldl_cons]
    have hpw_rest : rest.Pairwise (fun a b => trackLe a b = true) :=
      (List.pairwise_cons.mp hpw).2
    have hcur_rest : ∀ t ∈ rest, trackLe cur t = true :=
      (List.pairwise_cons.mp hpw).1
    cases acc with
    | nil =>
      refine ih [cur] hpw_rest ?_ (by simp) (by simp)
      intro a ha
      simp only [List.head?_cons, Option.some.injEq] at ha
      subst ha
      exact hcur_rest
    | cons h0 acctl =>
      have hh0cur : trackLe h0 cur = true := hhead h0 rfl cur (by simp)
      have hh0rest : ∀ t ∈ rest, trackLe h0 t = true := fun t ht =>
        hhead h0 rfl t (List.mem_cons_of_mem _ ht)
      rw [mergeFold_cons]
      split_ifs with hc
      · refine ih (mergeUnion h0 cur :: acctl) hpw_rest ?_ ?_ ?_
        · intro a ha t ht
          simp only [List.head?_cons, Option.some.injEq] at ha
          subst ha
          exact trackLe_mergeUnion_left hh0cur (hh0rest t ht) (hcur_rest t ht)
        · rw [List.pairwise_cons] at hsorted ⊢
          exact ⟨fun a ha => trackLe_mergeUnion_right (hsorted.1 a ha), hsorted.2⟩
        · cases acctl with
          | nil => simp
          | cons r0 acctl2 =>
            rw [List.chain'_cons] at hsep ⊢
            exact ⟨trackSep_mergeUnion hsep.1, hsep.2⟩
      · refine ih (cur :: h0 :: acctl) hpw_rest ?_ ?_ ?_
        · intro a ha t ht
          simp only [List.head?_cons, Option.some.injEq] at ha
          subst ha
          exact hcur_rest t ht
        · rw [List.pairwise_cons]
          refine ⟨?_, hsorted⟩
          intro a ha
          rcases List.mem_cons.mp ha with rfl | ha2
          · exact hh0cur
          · exact trackLe_trans a h0 cur
              ((List.pairwise_cons.mp hsorted).1 a ha2) hh0cur
        · rw [List.chain'_cons]
          exact ⟨hc, hsep⟩

/-- Folding a list whose consecutive tracks are separated, starting from any
accumulator topped by a track separated from the list head, just pushes
every element. -/
theorem foldl_mergeFold_sep : ∀ (l : List Track) (a : Track) (acc : List Track),
    List.Chain' trackSep (a :: l) →
    l.foldl mergeFold (a :: acc) = l.reverse ++ a :: acc := by
  intro l
  induction l with
  | nil => intro a acc _; rfl
  | cons b rest ih =>
    intro a acc hch
    rw [List.chain'_cons] at hch
    rw [List.foldl_cons, mergeFold_cons, if_neg hch.1, ih b (a :: acc) hch.2]
    simp

/-- A list that is sorted and whose consecutive tracks are separated is a
fixed point of the stitcher. -/
theorem merge_adjacent_tracks_of_stitched (l : List Track)
    (hpw : l.Pairwise (fun a b => trackLe a b = true))
    (hch : l.Chain' trackSep) :
    merge_adjacent_tracks l = l := by
  unfold merge_adjacent_tracks
  split_ifs with hlen
  · rfl
  · rw [List.mergeSort_of_sorted hpw]
    cases l with
    | nil => simp at hlen
    | cons a rest =>
      rw [List.foldl_cons]
      have h1 : mergeFold [] a = [a] := rfl
      rw [h1, foldl_mergeFold_sep rest a [] hch]
      simp

/-- C8: track stitching is idempotent — stitching the stitcher's own output
returns it unchanged. -/
theorem C8_stitch_idempotent (tracks : List Track) :
    merge_adjacent_tracks (merge_adjacent_tracks tracks) =
      merge_adjacent_tracks tracks := by
  by_cases hlen : tracks.length ≤ 1
  · simp [merge_adjacent_tracks, hlen]
  · have hsorted : (tracks.mergeSort trackLe).Pairwise (fun a b => trackLe a b = true) :=
      List.sorted_mergeSort trackLe_trans trackLe_total tracks
    have hinv := mergeFold_invariant (tracks.mergeSort trackLe) [] hsorted
      (by intro a ha; simp at ha) (by simp) (by simp)
    have hmerge : merge_adjacent_tracks tracks =
        ((tracks.mergeSort trackLe).foldl mergeFold []).reverse := by
      unfold merge_adjacent_tracks
      rw [if_neg hlen]
    apply merge_adjacent_tracks_of_stitched
    · rw [hmerge, List.pairwise_reverse]
      exact hinv.1
    · rw [hmerge, List.chain'_reverse]
      exact hinv.2

/-! ## Session store -/

/-- The `HashMap` key-uniqueness invariant on the association-list model. -/
abbrev keysNodup (sessions : Sessions) : Prop :=
  (sessions.map Prod.fst).Nodup

theorem findSession_cons (k0 : String) (st0 : SessionState) (rest : Sessions)
    (key : String) :
    findSession ((k0, st0) :: rest) key =
      if k0 = key then some st0 else findSession rest key := rfl

theorem setSession_cons (k0 : String) (st0 : SessionState) (rest : Sessions)
    (key : String) (st : SessionState) :
    setSession ((k0, st0) :: rest) key st =
      if k0 = key then (key, st) :: rest else (k0, st0) :: setSession rest key st := rfl

theorem findSession_setSession_self (s : Sessions) (k : String) (st : SessionState) :
    findSession (setSession s k st) k = some st := by
  induction s with
  | nil => simp [setSession, findSession]
  | cons p rest ih =>
    obtain ⟨k0, st0⟩ := p
    rw [setSession_cons]
    by_cases h : k0 = k
    · rw [if_pos h, findSession_cons, if_pos rfl]
    · rw [if_neg h, findSession_cons, if_neg h]
      exact ih

theorem findSession_setSession_ne (s : Sessions) (k k1 : String) (st : SessionState)
    (h : k1 ≠ k) : findSession (setSession s k st) k1 = findSession s k1 := by
  induction s with
  | nil =>
    show (if k = k1 then some st else none) = none
    rw [if_neg (fun he => h he.symm)]
  | cons p rest ih =>
    obtain ⟨k0, st0⟩ := p
    rw [setSession_cons]
    by_cases hk : k0 = k
    · subst hk
      rw [if_pos rfl, findSession_cons, findSession_cons,
        if_neg (fun he => h he.symm), if_neg (fun he => h he.symm)]
    · rw [if_neg hk, findSession_cons, findSession_cons]
      by_cases h0 : k0 = k1
      · rw [if_pos h0, if_pos h0]
      · rw [if_neg h0, if_neg h0]
        exact ih

theorem findSession_eq_none (s : Sessions) (k : String)
    (h : k ∉ s.map Prod.fst) : findSession s k = none := by
  induction s with
  | nil => rfl
  | cons p rest ih =>
    obtain ⟨k0, st0⟩ := p
    simp only [List.map_cons, List.mem_cons] at h
    push_neg at h
    rw [findSession_cons, if_neg (fun he => h.1 he.symm)]
    exact ih h.2

theorem findSession_filter (f : String × SessionState → Bool)
    (p : String × SessionState) : ∀ (s : Sessions), keysNodup s → p ∈ s →
    findSession (s.filter f) p.1 = if f p then some p.2 else none := by
  obtain ⟨pk, pv⟩ := p
  intro s
  induction s with
  | nil => intro _ hp; cases hp
  | cons q rest ih =>
    intro hN hp
    obtain ⟨k0, st0⟩ := q
    simp only [keysNodup, List.map_cons, List.nodup_cons] at hN
    rcases List.mem_cons.mp hp with heq | hmem
    · cases heq
      by_cases hf : f (pk, pv)
      · rw [List.filter_cons, if_pos (by simpa using hf), findSession_cons,
          if_pos rfl, if_pos hf]
      · rw [List.filter_cons, if_neg (by simpa using hf), if_neg hf]
        apply findSession_eq_none
        intro hmem2
        rcases List.mem_map.mp hmem2 with ⟨q2, hq2, hfst⟩
        apply hN.1
        have h4 : q2.1 ∈ List.map Prod.fst rest :=
          List.mem_map_of_mem Prod.fst (List.mem_of_mem_filter hq2)
        rw [hfst] at h4
        exact h4
    · have hne : pk ≠ k0 := by
        intro he
        exact hN.1 (he ▸ List.mem_map_of_mem Prod.fst hmem)
      rw [List.filter_cons]
      by_cases hf0 : f (k0, st0)
      · rw [if_pos (by simpa using hf0), findSession_cons,
          if_neg (fun he => hne he.symm)]
        exact ih hN.2 hmem
      · rw [if_neg (by simpa using hf0)]
        exact ih hN.2 hmem

theorem touchSession_snd (cm : ℕ) (rm : Option ℕ) (ttl now : ℤ) (key : String)
    (s : Sessions) :
    (touchSession cm rm ttl now key s).2 =
      setSession (sweepSessions ttl now s) key (touchSession cm rm ttl now key s).1 := by
  cases h : findSession (sweepSessions ttl now s) key <;>
    simp [touchSession, h]

theorem touchSession_find_self (cm : ℕ) (rm : Option ℕ) (ttl now : ℤ) (key : String)
    (s : Sessions) :
    findSession (touchSession cm rm ttl now key s).2 key =
      some (touchSession cm rm ttl now key s).1 := by
  rw [touchSession_snd]
  exact findSession_setSession_self _ _ _

/-- C3: (i) the configured TTL has a 60-second floor
(`Duration::from_secs(session_ttl_sec.max(60))` in milliseconds); (ii) on a
request touching any session key, every other session whose idle time
exceeds the TTL is evicted, every other session with idle time at most the
TTL is kept untouched, and if the touched key is absent or was just
evicted, a fresh session is created whose clustering state is empty with
the configured capacity and whose last-activity is `now`. -/
theorem C3_session_ttl_eviction :
    (∀ args : ServeArgs,
      (mkConfig args).session_ttl_ms = ((max args.session_ttl_sec 60 : ℕ) : ℤ) * 1000 ∧
      (60000 : ℤ) ≤ (mkConfig args).session_ttl_ms) ∧
    (∀ (cm : ℕ) (rm : Option ℕ) (ttl now : ℤ) (key : String) (sessions : Sessions),
      keysNodup sessions →
      (∀ p ∈ sessions, ttl < now - p.2.last_seen_ms → p.1 ≠ key →
        findSession (touchSession cm rm ttl now key sessions).2 p.1 = none) ∧
      (∀ p ∈ sessions, now - p.2.last_seen_ms ≤ ttl → p.1 ≠ key →
        findSession (touchSession cm rm ttl now key sessions).2 p.1 = some p.2) ∧
      (findSession (sweepSessions ttl now sessions) key = none →
        findSession (touchSession cm rm ttl now key sessions).2 key =
          some ⟨EmbeddingManager.new (rm.getD cm), now⟩ ∧
        EmbeddingManager.new (rm.getD cm) = ⟨rm.getD cm, []⟩)) := by
  constructor
  · intro args
    constructor
    · simp [mkConfig]
    · simp only [mkConfig]
      have h : (60 : ℕ) ≤ max args.session_ttl_sec 60 := le_max_right _ _
      push_cast
      nlinarith [h]
  · intro cm rm ttl now key sessions hN
    refine ⟨?_, ?_, ?_⟩
    · intro p hp hidle hne
      rw [touchSession_snd, findSession_setSession_ne _ _ _ _ hne]
      unfold sweepSessions
      rw [findSession_filter _ p sessions hN hp]
      rw [if_neg (by simp; omega)]
    · intro p hp hidle hne
      rw [touchSession_snd, findSession_setSession_ne _ _ _ _ hne]
      unfold sweepSessions
      rw [findSession_filter _ p sessions hN hp]
      rw [if_pos (by simpa using hidle)]
    · intro habsent
      refine ⟨?_, rfl⟩
      simp only [touchSession, habsent]
      exact findSession_setSession_self _ _ _

/-- C3, witness: with TTL 120 ms at `now = 200`, touching key `"c"` evicts
`"a"` (idle 200), keeps `"b"` (idle 100), and creates a fresh empty session
under `"c"`; and a server configured with `session_ttl_sec = 0` still gets
a 60000 ms TTL. -/
theorem C3_session_ttl_eviction_witness :
    ((mkConfig ⟨8, 1/2, 0⟩).session_ttl_ms = ((max 0 60 : ℕ) : ℤ) * 1000 ∧
      (60000 : ℤ) ≤ (mkConfig ⟨8, 1/2, 0⟩).session_ttl_ms) ∧
    keysNodup [("a", ⟨⟨2, []⟩, 0⟩), ("b", ⟨⟨3, []⟩, 100⟩)] ∧
    ((∀ p ∈ ([("a", ⟨⟨2, []⟩, 0⟩), ("b", ⟨⟨3, []⟩, 100⟩)] : Sessions),
        (120 : ℤ) < 200 - p.2.last_seen_ms → p.1 ≠ "c" →
        findSession (touchSession 8 none 120 200 "c"
          [("a", ⟨⟨2, []⟩, 0⟩), ("b", ⟨⟨3, []⟩, 100⟩)]).2 p.1 = none) ∧
      (∀ p ∈ ([("a", ⟨⟨2, []⟩, 0⟩), ("b", ⟨⟨3, []⟩, 100⟩)] : Sessions),
        200 - p.2.last_seen_ms ≤ (120 : ℤ) → p.1 ≠ "c" →
        findSession (touchSession 8 none 120 200 "c"
          [("a", ⟨⟨2, []⟩, 0⟩), ("b", ⟨⟨3, []⟩, 100⟩)]).2 p.1 = some p.2) ∧
      (findSession (sweepSessions 120 200
          [("a", ⟨⟨2, []⟩, 0⟩), ("b", ⟨⟨3, []⟩, 100⟩)]) "c" = none →
        findSession (touchSession 8 none 120 200 "c"
          [("a", ⟨⟨2, []⟩, 0⟩), ("b", ⟨⟨3, []⟩, 100⟩)]).2 "c" =
          some ⟨EmbeddingManager.new ((none : Option ℕ).getD 8), 200⟩ ∧
        EmbeddingManager.new ((none : Option ℕ).getD 8) = ⟨(none : Option ℕ).getD 8, []⟩)) :=
  ⟨C3_session_ttl_eviction.1 ⟨8, 1/2, 0⟩,
   by decide,
   C3_session_ttl_eviction.2 8 none 120 200 "c"
     [("a", ⟨⟨2, []⟩, 0⟩), ("b", ⟨⟨3, []⟩, 100⟩)] (by decide)⟩

theorem touchSession_fst_of_found (cm : ℕ) (rm : Option ℕ) (ttl now : ℤ)
    (key : String) (s : Sessions) (st0 : SessionState)
    (h : findSession (sweepSessions ttl now s) key = some st0) :
    (touchSession cm rm ttl now key s).1 = { st0 with last_seen_ms := now } := by
  simp only [touchSession, h]

theorem touchSession_fst_of_absent (cm : ℕ) (rm : Option ℕ) (ttl now : ℤ)
    (key : String) (s : Sessions)
    (h : findSession (sweepSessions ttl now s) key = none) :
    (touchSession cm rm ttl now key s).1 =
      ⟨EmbeddingManager.new (rm.getD cm), now⟩ := by
  simp only [touchSession, h]

theorem resolveSpeaker_find_self (ops : ClusteringOps) (cm : ℕ) (rm : Option ℕ)
    (ttl now : ℤ) (key : String) (emb : List ℚ) (θ : ℚ) (s : Sessions) :
    ∃ st1, findSession (resolveSpeaker ops cm rm ttl now key emb θ s).2 key = some st1 ∧
      st1.manager.maxSpeakers =
        (touchSession cm rm ttl now key s).1.manager.maxSpeakers := by
  simp only [resolveSpeaker]
  cases hs : ops.search (touchSession cm rm ttl now key s).1.manager emb θ with
  | some id =>
    simp only [hs]
    exact ⟨_, touchSession_find_self cm rm ttl now key s, rfl⟩
  | none =>
    simp only [hs]
    exact ⟨_, findSession_setSession_self _ _ _, rfl⟩

/-- C10: the per-request `max_speakers` override only matters at session
creation.  If the (post-sweep) table already holds the key, the touched
session keeps its existing clustering capacity whatever the override says;
if the key is absent, the fresh session's capacity is
`req.max_speakers.unwrap_or(config.max_speakers)`. -/
theorem C10_max_speakers_only_on_create (ops : ClusteringOps) (cm : ℕ)
    (rm : Option ℕ) (ttl now : ℤ) (key : String) (emb : List ℚ) (θ : ℚ)
    (sessions : Sessions) :
    (∀ st0, findSession (sweepSessions ttl now sessions) key = some st0 →
      ∃ st1, findSession (resolveSpeaker ops cm rm ttl now key emb θ sessions).2 key =
          some st1 ∧
        st1.manager.maxSpeakers = st0.manager.maxSpeakers) ∧
    (findSession (sweepSessions ttl now sessions) key = none →
      ∃ st1, findSession (resolveSpeaker ops cm rm ttl now key emb θ sessions).2 key =
          some st1 ∧
        st1.manager.maxSpeakers = rm.getD cm) := by
  constructor
  · intro st0 h0
    obtain ⟨st1, h1, h2⟩ := resolveSpeaker_find_self ops cm rm ttl now key emb θ sessions
    refine ⟨st1, h1, ?_⟩
    rw [h2, touchSession_fst_of_found cm rm ttl now key sessions st0 h0]
  · intro h0
    obtain ⟨st1, h1, h2⟩ := resolveSpeaker_find_self ops cm rm ttl now key emb θ sessions
    refine ⟨st1, h1, ?_⟩
    rw [h2, touchSession_fst_of_absent cm rm ttl now key sessions h0]
    rfl

/-- C10, witness: with an existing session `"s1"` of capacity 7 and an
override of 3, resolving under `"s1"` keeps capacity 7, while resolving
under the absent key `"s2"` creates capacity 3. -/
theorem C10_max_speakers_only_on_create_witness :
    (findSession (sweepSessions 120 150 [("s1", ⟨⟨7, []⟩, 100⟩)]) "s1" =
      some ⟨⟨7, []⟩, 100⟩ ∧
    (∃ st1, findSession ((resolveSpeaker ⟨fun _ _ _ => none, fun m _ => (some 1, m.speakers)⟩
        8 (some 3) 120 150 "s1" [1] (1/2) [("s1", ⟨⟨7, []⟩, 100⟩)]).2) "s1" = some st1 ∧
      st1.manager.maxSpeakers = (⟨⟨7, []⟩, 100⟩ : SessionState).manager.maxSpeakers)) ∧
    (findSession (sweepSessions 120 150 [("s1", ⟨⟨7, []⟩, 100⟩)]) "s2" = none ∧
    (∃ st1, findSession ((resolveSpeaker ⟨fun _ _ _ => none, fun m _ => (some 1, m.speakers)⟩
        8 (some 3) 120 150 "s2" [1] (1/2) [("s1", ⟨⟨7, []⟩, 100⟩)]).2) "s2" = some st1 ∧
      st1.manager.maxSpeakers = (some 3).getD 8)) :=
  ⟨⟨rfl, (C10_max_speakers_only_on_create ⟨fun _ _ _ => none, fun m _ => (some 1, m.speakers)⟩
      8 (some 3) 120 150 "s1" [1] (1/2) [("s1", ⟨⟨7, []⟩, 100⟩)]).1 ⟨⟨7, []⟩, 100⟩ rfl⟩,
   ⟨rfl, (C10_max_speakers_only_on_create ⟨fun _ _ _ => none, fun m _ => (some 1, m.speakers)⟩
      8 (some 3) 120 150 "s2" [1] (1/2) [("s1", ⟨⟨7, []⟩, 100⟩)]).2 rfl⟩⟩

/-! ## Request validation (diarize) -/

theorem decode_pcm_s16le_error_status (s : String) (er : AppError)
    (h : decode_pcm_s16le s = Except.error er) : er.status = Status.badRequest := by
  unfold decode_pcm_s16le at h
  cases hb : base64Decode s with
  | none =>
    rw [hb] at h
    cases h
    rfl
  | some bytes =>
    rw [hb] at h
    by_cases h0 : bytes.length = 0
    · simp [h0] at h
      cases h
      rfl
    · by_cases h1 : bytes.length % 2 = 0
      · simp [h0, h1] at h
      · simp [h0, h1] at h
        cases h
        rfl

theorem decode_pcm_s16le_ok_of (s : String) (bytes : List ℕ)
    (hb : base64Decode s = some bytes) (h0 : bytes.length ≠ 0)
    (h1 : bytes.length % 2 = 0) :
    decode_pcm_s16le s = Except.ok (pcmSamples bytes) := by
  unfold decode_pcm_s16le
  rw [hb]
  simp [h0, h1]

theorem decode_pcm_s16le_ok_elim (s : String) (samples : List ℤ)
    (h : decode_pcm_s16le s = Except.ok samples) :
    ∃ bytes, base64Decode s = some bytes ∧ bytes.length ≠ 0 ∧
      bytes.length % 2 = 0 := by
  unfold decode_pcm_s16le at h
  cases hb : base64Decode s with
  | none => rw [hb] at h; cases h
  | some bytes =>
    rw [hb] at h
    by_cases h0 : bytes.length = 0
    · simp [h0] at h
    · by_cases h1 : bytes.length % 2 = 0
      · exact ⟨bytes, rfl, h0, h1⟩
      · simp [h0, h1] at h

/-- Follows the spec's words (amended): the client-error conditions of the
diarize handler — empty trimmed session id, zero sample rate, invalid
base64, zero or odd decoded byte count, or a `start_end_ms` pair with a
negative start or with `end < start`.  (The original claim omits the
negative-start case; this predicate is meant to be compared with the
behavior of `diarize`.) -/
def invalidRequestSpec (req : DiarizeRequest) : Prop :=
  rustTrim req.session_id = "" ∨
  req.sample_rate.getD 16000 = 0 ∨
  base64Decode req.content_b64 = none ∨
  (∃ bytes, base64Decode req.content_b64 = some bytes ∧
    (bytes.length = 0 ∨ bytes.length % 2 ≠ 0)) ∨
  (∃ s e, req.start_end_ms = some (s, e) ∧ (s < 0 ∨ e < s))

theorem diarize_trim_empty (ops : ClusteringOps) (config : Config)
    (gs : List ℤ → ℕ → Except String (List (Except String Segment)))
    (embed : List ℤ → Except String (List ℚ)) (clock : ℕ → ℤ)
    (sessions : Sessions) (req : DiarizeRequest)
    (h : rustTrim req.session_id = "") :
    diarize ops config gs embed clock sessions req =
      Except.error (AppError.bad_request ("session_id is required")) := by
  simp [diarize, h]

theorem diarize_zero_rate (ops : ClusteringOps) (config : Config)
    (gs : List ℤ → ℕ → Except String (List (Except String Segment)))
    (embed : List ℤ → Except String (List ℚ)) (clock : ℕ → ℤ)
    (sessions : Sessions) (req : DiarizeRequest)
    (h1 : rustTrim req.session_id ≠ "") (h2 : req.sample_rate.getD 16000 = 0) :
    diarize ops config gs embed clock sessions req =
      Except.error (AppError.bad_request ("sample_rate must be positive")) := by
  simp [diarize, h1, h2]

theorem diarize_decode_error (ops : ClusteringOps) (config : Config)
    (gs : List ℤ → ℕ → Except String (List (Except String Segment)))
    (embed : List ℤ → Except String (List ℚ)) (clock : ℕ → ℤ)
    (sessions : Sessions) (req : DiarizeRequest) (er : AppError)
    (h1 : rustTrim req.session_id ≠ "") (h2 : req.sample_rate.getD 16000 ≠ 0)
    (h3 : decode_pcm_s16le req.content_b64 = Except.error er) :
    diarize ops config gs embed clock sessions req = Except.error er := by
  simp [diarize, h1, h2, h3]

theorem diarize_decode_ok (ops : ClusteringOps) (config : Config)
    (gs : List ℤ → ℕ → Except String (List (Except String Segment)))
    (embed : List ℤ → Except String (List ℚ)) (clock : ℕ → ℤ)
    (sessions : Sessions) (req : DiarizeRequest) (samples : List ℤ)
    (h1 : rustTrim req.session_id ≠ "") (h2 : req.sample_rate.getD 16000 ≠ 0)
    (h3 : decode_pcm_s16le req.content_b64 = Except.ok samples) :
    diarize ops config gs embed clock sessions req =
      diarizeWithSamples ops config gs embed clock sessions
        (rustTrim req.session_id) (req.sample_rate.getD 16000)
        (clampQ (req.threshold.getD config.threshold) 0 1)
        req.max_speakers req.start_end_ms samples := by
  simp [diarize, h1, h2, h3]

theorem diarizeWithSamples_bad_bounds (ops : ClusteringOps) (config : Config)
    (gs : List ℤ → ℕ → Except String (List (Except String Segment)))
    (embed : List ℤ → Except String (List ℚ)) (clock : ℕ → ℤ)
    (sessions : Sessions) (session_id : String) (sample_rate : ℕ)
    (threshold : ℚ) (rm : Option ℕ) (s e : ℤ) (samples : List ℤ)
    (hbad : ¬ (0 ≤ s ∧ s ≤ e)) :
    diarizeWithSamples ops config gs embed clock sessions session_id sample_rate
        threshold rm (some (s, e)) samples =
      Except.error (AppError.bad_request ("start_end_ms must be [start,end] and end >= start")) := by
  simp [diarizeWithSamples, hbad]

theorem diarizeSegments_error_internal (ops : ClusteringOps) (config : Config)
    (embed : List ℤ → Except String (List ℚ)) (clock : ℕ → ℤ)
    (session_id : String) (threshold : ℚ) (rm : Option ℕ) (ws we : ℤ) :
    ∀ (segs : List (Except String Segment)) (i : ℕ) (sessions : Sessions)
      (tracks : List Track) (warnings : List String) (er : AppError),
      diarizeSegments ops config embed clock session_id threshold rm ws we
        segs i sessions tracks warnings = Except.error er →
      er.status = Status.internal := by
  intro segs
  induction segs with
  | nil =>
    intro i sessions tracks warnings er h
    simp [diarizeSegments] at h
  | cons hd rest ih =>
    intro i sessions tracks warnings er h
    cases hd with
    | error e =>
      rw [show diarizeSegments ops config embed clock session_id threshold rm ws we
          (Except.error e :: rest) i sessions tracks warnings =
          diarizeSegments ops config embed clock session_id threshold rm ws we
          rest (i + 1) sessions tracks (warnings ++ [("segment skipped: " ++ e)]) from rfl] at h
      exact ih _ _ _ _ _ h
    | ok seg =>
      by_cases hempty : seg.samples = []
      · simp only [diarizeSegments, if_pos hempty] at h
        exact ih _ _ _ _ _ h
      · cases hemb : embed seg.samples with
        | error e =>
          simp only [diarizeSegments, if_neg hempty, hemb] at h
          cases h
          rfl
        | ok embedding =>
          simp only [diarizeSegments, if_neg hempty, hemb] at h
          by_cases hr : (resolveSpeaker ops config.max_speakers rm
              config.session_ttl_ms (clock i) session_id embedding threshold sessions).1 = 0
          · rw [if_pos hr] at h
            exact ih _ _ _ _ _ h
          · rw [if_neg hr] at h
            exact ih _ _ _ _ _ h

theorem diarizeWithSamples_error_internal (ops : ClusteringOps) (config : Config)
    (gs : List ℤ → ℕ → Except String (List (Except String Segment)))
    (embed : List ℤ → Except String (List ℚ)) (clock : ℕ → ℤ)
    (sessions : Sessions) (session_id : String) (sample_rate : ℕ)
    (threshold : ℚ) (rm : Option ℕ) (start_end_ms : Option (ℤ × ℤ))
    (samples : List ℤ) (er : AppError)
    (hok : ∀ s e, start_end_ms = some (s, e) → 0 ≤ s ∧ s ≤ e)
    (h : diarizeWithSamples ops config gs embed clock sessions session_id
      sample_rate threshold rm start_end_ms samples = Except.error er) :
    er.status = Status.internal := by
  have hrun : ∀ (ws we : ℤ),
      (match gs samples sample_rate with
        | Except.error e => Except.error (AppError.internal ("segmentation failed: " ++ e))
        | Except.ok segs =>
          match diarizeSegments ops config embed clock session_id threshold rm
              ws we segs 0 sessions [] [] with
          | Except.error e => Except.error e
          | Except.ok (tracks, warnings, sessions1) =>
            Except.ok
              ({ session_id := session_id
                 tracks := merge_adjacent_tracks tracks
                 warnings := warnings }, sessions1) :
        Except AppError (DiarizeResponse × Sessions)) = Except.error er →
      er.status = Status.internal := by
    intro ws we hrun
    cases hgs : gs samples sample_rate with
    | error e =>
      simp only [hgs] at hrun
      cases hrun
      rfl
    | ok segs =>
      simp only [hgs] at hrun
      cases hds : diarizeSegments ops config embed clock session_id threshold rm
          ws we segs 0 sessions [] [] with
      | error e2 =>
        simp only [hds] at hrun
        cases hrun
        exact diarizeSegments_error_internal ops config embed clock session_id
          threshold rm ws we segs 0 sessions [] [] _ hds
      | ok out =>
        obtain ⟨tracks, warnings, sessions1⟩ := out
        simp only [hds] at hrun
        cases hrun
  cases hse : start_end_ms with
  | none =>
    rw [hse] at h
    simp only [diarizeWithSamples] at h
    exact hrun _ _ h
  | some p =>
    obtain ⟨s, e⟩ := p
    have hb := hok s e hse
    rw [hse] at h
    simp only [diarizeWithSamples, if_pos hb] at h
    exact hrun _ _ h

theorem diarize_invalid_is_bad_request (ops : ClusteringOps) (config : Config)
    (gs : List ℤ → ℕ → Except String (List (Except String Segment)))
    (embed : List ℤ → Except String (List ℚ)) (clock : ℕ → ℤ)
    (sessions : Sessions) (req : DiarizeRequest)
    (hinv : invalidRequestSpec req) :
    ∃ er, diarize ops config gs embed clock sessions req = Except.error er ∧
      er.status = Status.badRequest := by
  by_cases h1 : rustTrim req.session_id = ""
  · exact ⟨_, diarize_trim_empty ops config gs embed clock sessions req h1, rfl⟩
  · by_cases h2 : req.sample_rate.getD 16000 = 0
    · exact ⟨_, diarize_zero_rate ops config gs embed clock sessions req h1 h2, rfl⟩
    · cases hdec : decode_pcm_s16le req.content_b64 with
      | error er =>
        exact ⟨er, diarize_decode_error ops config gs embed clock sessions req er h1 h2 hdec,
          decode_pcm_s16le_error_status _ er hdec⟩
      | ok samples =>
        obtain ⟨bytes, hb, hb0, hb1⟩ := decode_pcm_s16le_ok_elim _ _ hdec
        rcases hinv with h | h | h | ⟨bytes2, hb2, hbad⟩ | ⟨s, e, hse, hbad⟩
        · exact absurd h h1
        · exact absurd h h2
        · rw [h] at hb; cases hb
        · rw [hb2] at hb
          cases hb
          rcases hbad with h0 | h0 <;> [exact absurd h0 hb0; exact absurd hb1 h0]
        · refine ⟨AppError.bad_request ("start_end_ms must be [start,end] and end >= start"),
            ?_, rfl⟩
          rw [diarize_decode_ok ops config gs embed clock sessions req samples h1 h2 hdec,
            hse, diarizeWithSamples_bad_bounds]
          omega

/-- C2 (amended): the diarize handler fails with a bad-request error exactly
when the trimmed session id is empty, the sample rate is zero, the payload
is not valid base64, the decoded byte count is zero or odd, or the supplied
`start_end_ms` pair has a negative start or `end < start`; and on any such
request the handler's result is independent of the segmentation, embedding
and clustering capabilities and of the clock (they are never consulted). -/
theorem C2_validation_bad_request (ops : ClusteringOps) (config : Config)
    (gs : List ℤ → ℕ → Except String (List (Except String Segment)))
    (embed : List ℤ → Except String (List ℚ)) (clock : ℕ → ℤ)
    (sessions : Sessions) (req : DiarizeRequest) :
    ((∃ er, diarize ops config gs embed clock sessions req = Except.error er ∧
        er.status = Status.badRequest) ↔ invalidRequestSpec req) ∧
    (invalidRequestSpec req →
      ∀ (ops2 : ClusteringOps)
        (gs2 : List ℤ → ℕ → Except String (List (Except String Segment)))
        (embed2 : List ℤ → Except String (List ℚ)) (clock2 : ℕ → ℤ),
        diarize ops config gs embed clock sessions req =
          diarize ops2 config gs2 embed2 clock2 sessions req) := by
  constructor
  · constructor
    · rintro ⟨er, her, hstatus⟩
      by_contra hinv
      unfold invalidRequestSpec at hinv
      push_neg at hinv
      obtain ⟨h1, h2, h3, h4, h5⟩ := hinv
      cases hb : base64Decode req.content_b64 with
      | none => exact h3 hb
      | some bytes =>
        have hbad := h4 bytes hb
        push_neg at hbad
        have hdec := decode_pcm_s16le_ok_of _ bytes hb hbad.1 (by omega)
        rw [diarize_decode_ok ops config gs embed clock sessions req _ h1 h2 hdec] at her
        have hint := diarizeWithSamples_error_internal ops config gs embed clock sessions
          (rustTrim req.session_id) (req.sample_rate.getD 16000)
          (clampQ (req.threshold.getD config.threshold) 0 1) req.max_speakers
          req.start_end_ms (pcmSamples bytes) er
          (by
            intro s e hse
            have := h5 s e hse
            omega) her
        rw [hint] at hstatus
        cases hstatus
    · exact diarize_invalid_is_bad_request ops config gs embed clock sessions req
  · intro hinv ops2 gs2 embed2 clock2
    by_cases h1 : rustTrim req.session_id = ""
    · rw [diarize_trim_empty ops config gs embed clock sessions req h1,
        diarize_trim_empty ops2 config gs2 embed2 clock2 sessions req h1]
    · by_cases h2 : req.sample_rate.getD 16000 = 0
      · rw [diarize_zero_rate ops config gs embed clock sessions req h1 h2,
          diarize_zero_rate ops2 config gs2 embed2 clock2 sessions req h1 h2]
      · cases hdec : decode_pcm_s16le req.content_b64 with
        | error er =>
          rw [diarize_decode_error ops config gs embed clock sessions req er h1 h2 hdec,
            diarize_decode_error ops2 config gs2 embed2 clock2 sessions req er h1 h2 hdec]
        | ok samples =>
          obtain ⟨bytes, hb, hb0, hb1⟩ := decode_pcm_s16le_ok_elim _ _ hdec
          rcases hinv with h | h | h | ⟨bytes2, hb2, hbad⟩ | ⟨s, e, hse, hbad⟩
          · exact absurd h h1
          · exact absurd h h2
          · rw [h] at hb; cases hb
          · rw [hb2] at hb
            cases hb
            rcases hbad with h0 | h0 <;> [exact absurd h0 hb0; exact absurd hb1 h0]
          · rw [diarize_decode_ok ops config gs embed clock sessions req samples h1 h2 hdec,
              diarize_decode_ok ops2 config gs2 embed2 clock2 sessions req samples h1 h2 hdec,
              hse, diarizeWithSamples_bad_bounds, diarizeWithSamples_bad_bounds]
            · omega
            · omega

/-- C2, counterexample to the original claim: the request with session
`"s1"`, valid payload `"AAA="` (two decoded bytes), default sample rate and
`start_end_ms = [-1, 0]` satisfies none of the claim's listed conditions
(in particular `end ≥ start`), yet the handler rejects it with a
bad-request error because the start is negative. -/
theorem C2_counterexample :
    (∃ er, diarize ⟨fun _ _ _ => none, fun m _ => (none, m.speakers)⟩
        ⟨8, 1/2, 3600000⟩ (fun _ _ => Except.ok []) (fun _ => Except.ok [1])
        (fun _ => 0) []
        ⟨"s1", "AAA=", none, some (-1, 0), none, none⟩ = Except.error er ∧
      er.status = Status.badRequest) ∧
    ¬ (rustTrim "s1" = "" ∨ (none : Option ℕ).getD 16000 = 0 ∨
      base64Decode "AAA=" = none ∨
      (∃ bytes, base64Decode "AAA=" = some bytes ∧
        (bytes.length = 0 ∨ bytes.length % 2 ≠ 0)) ∨
      (∃ s e, (some ((-1 : ℤ), (0 : ℤ)) : Option (ℤ × ℤ)) = some (s, e) ∧ e < s)) := by
  constructor
  · refine ⟨AppError.bad_request ("start_end_ms must be [start,end] and end >= start"), ?_, rfl⟩
    rw [diarize_decode_ok _ _ _ _ _ _ _ (pcmSamples [0, 0]) (by decide) (by decide)
      (decode_pcm_s16le_ok_of "AAA=" [0, 0] rfl (by decide) (by decide))]
    rw [show (⟨"s1", "AAA=", none, some (-1, 0), none, none⟩ :
        DiarizeRequest).start_end_ms = some ((-1 : ℤ), (0 : ℤ)) from rfl]
    rw [diarizeWithSamples_bad_bounds]
    omega
  · rintro (h | h | h | ⟨bytes, hb, hbad⟩ | ⟨s, e, hse, hlt⟩)
    · exact absurd h (by decide)
    · exact absurd h (by decide)
    · exact absurd h (by decide)
    · have hb2 : ([0, 0] : List ℕ) = bytes := by
        have := hb.symm.trans (rfl : base64Decode "AAA=" = some [0, 0]).symm
        exact (Option.some.injEq _ _).mp this.symm
      rw [← hb2] at hbad
      rcases hbad with h0 | h0 <;> simp at h0
    · cases hse
      omega

/-- C2, witness: the independence part of `C2_validation_bad_request` applied
to the concrete invalid request (empty session id after trimming): two runs
with entirely different capability implementations coincide. -/
theorem C2_validation_bad_request_witness :
    invalidRequestSpec ⟨" ", "AAA=", none, none, none, none⟩ ∧
    diarize ⟨fun _ _ _ => none, fun m _ => (none, m.speakers)⟩
        ⟨8, 1/2, 3600000⟩ (fun _ _ => Except.ok []) (fun _ => Except.ok [1])
        (fun _ => 0) [] ⟨" ", "AAA=", none, none, none, none⟩ =
      diarize ⟨fun _ _ _ => some 5, fun m _ => (some 2, m.speakers)⟩
        ⟨8, 1/2, 3600000⟩ (fun _ _ => Except.error "down")
        (fun _ => Except.error "down") (fun _ => 99) []
        ⟨" ", "AAA=", none, none, none, none⟩ :=
  ⟨Or.inl (by decide),
   (C2_validation_bad_request ⟨fun _ _ _ => none, fun m _ => (none, m.speakers)⟩
      ⟨8, 1/2, 3600000⟩ (fun _ _ => Except.ok []) (fun _ => Except.ok [1])
      (fun _ => 0) [] ⟨" ", "AAA=", none, none, none, none⟩).2
    (Or.inl (by decide)) _ _ _ _⟩

/-! ## Speaker resolution and the sentinel label -/

theorem toDigitsCore_head_ne_zero : ∀ (fuel n : ℕ) (acc : List Char),
    n ≠ 0 → n ≤ fuel →
    ∃ d ds, Nat.toDigitsCore 10 fuel n acc = d :: ds ∧ d ≠ '0' := by
  intro fuel
  induction fuel with
  | zero => intro n acc h0 hle; omega
  | succ f ih =>
    intro n acc h0 hle
    by_cases hnd : n / 10 = 0
    · refine ⟨Nat.digitChar (n % 10), acc, ?_, ?_⟩
      · simp [Nat.toDigitsCore, hnd]
      · have hd : ∀ m, m < 10 → m ≠ 0 → Nat.digitChar m ≠ '0' := by decide
        exact hd (n % 10) (by omega) (by omega)
    · obtain ⟨d, ds, hds, hd0⟩ :=
        ih (n / 10) (Nat.digitChar (n % 10) :: acc) hnd (by omega)
      refine ⟨d, ds, ?_, hd0⟩
      rw [show Nat.toDigitsCore 10 (f + 1) n acc =
        Nat.toDigitsCore 10 f (n / 10) (Nat.digitChar (n % 10) :: acc) by
          simp [Nat.toDigitsCore, hnd]]
      exact hds

theorem Nat_repr_eq_zero_imp (n : ℕ) (h : Nat.repr n = "0") : n = 0 := by
  by_contra h0
  obtain ⟨d, ds, hds, hd0⟩ := toDigitsCore_head_ne_zero (n + 1) n [] h0 (by omega)
  have h2 : (Nat.toDigits 10 n).asString = "0" := h
  rw [Nat.toDigits, hds] at h2
  have h3 : d :: ds = ['0'] := congrArg String.data h2
  exact hd0 (List.head_eq_of_cons_eq h3)

theorem speakerTag_ne_sentinel (id : ℕ) (h : id ≠ 0) :
    speakerTag id ≠ "edge_spk_0" := by
  intro he
  apply h
  apply Nat_repr_eq_zero_imp
  have h2 : ("edge_spk_" ++ toString id).data = ("edge_spk_0" : String).data :=
    congrArg String.data he
  rw [String.data_append] at h2
  have h3 : ("edge_spk_0" : String).data = ("edge_spk_" : String).data ++ ['0'] := by
    decide
  rw [h3] at h2
  have h4 : (toString id).data = ['0'] := List.append_cancel_left h2
  exact String.ext h4

theorem foldl_mergeFold_speakers (P : String → Prop) :
    ∀ (l acc : List Track), (∀ t ∈ l, P t.speaker_id) →
      (∀ t ∈ acc, P t.speaker_id) →
      ∀ t ∈ l.foldl mergeFold acc, P t.speaker_id := by
  intro l
  induction l with
  | nil => intro acc _ hacc t ht; exact hacc t ht
  | cons cur rest ih =>
    intro acc hl hacc
    rw [List.foldl_cons]
    apply ih
    · intro t ht
      exact hl t (List.mem_cons_of_mem _ ht)
    · cases acc with
      | nil =>
        intro t ht
        rcases List.mem_singleton.mp ht with rfl
        exact hl t (List.mem_cons_self _ _)
      | cons h0 acctl =>
        rw [mergeFold_cons]
        split_ifs
        · intro t ht
          rcases List.mem_cons.mp ht with rfl | ht2
          · exact hacc h0 (List.mem_cons_self _ _)
          · exact hacc t (List.mem_cons_of_mem _ ht2)
        · intro t ht
          rcases List.mem_cons.mp ht with rfl | ht2
          · exact hl t (List.mem_cons_self _ _)
          · exact hacc t ht2

theorem merge_adjacent_tracks_speakers (P : String → Prop) (l : List Track)
    (hl : ∀ t ∈ l, P t.speaker_id) :
    ∀ t ∈ merge_adjacent_tracks l, P t.speaker_id := by
  unfold merge_adjacent_tracks
  split_ifs with hlen
  · exact hl
  · intro t ht
    rw [List.mem_reverse] at ht
    refine foldl_mergeFold_speakers P (l.mergeSort trackLe) [] ?_ (by simp) t ht
    intro t2 ht2
    exact hl t2 (List.mem_mergeSort.mp ht2)

theorem diarizeSegments_ok_tracks (ops : ClusteringOps) (config : Config)
    (embed : List ℤ → Except String (List ℚ)) (clock : ℕ → ℤ)
    (session_id : String) (threshold : ℚ) (rm : Option ℕ) (ws we : ℤ) :
    ∀ (segs : List (Except String Segment)) (i : ℕ) (sessions : Sessions)
      (tracks : List Track) (warnings : List String)
      (out : List Track × List String × Sessions),
      diarizeSegments ops config embed clock session_id threshold rm ws we
        segs i sessions tracks warnings = Except.ok out →
      (∀ t ∈ tracks, ∃ id, id ≠ 0 ∧ t.speaker_id = speakerTag id) →
      ∀ t ∈ out.1, ∃ id, id ≠ 0 ∧ t.speaker_id = speakerTag id := by
  intro segs
  induction segs with
  | nil =>
    intro i sessions tracks warnings out h hin
    simp only [diarizeSegments] at h
    cases h
    exact hin
  | cons hd rest ih =>
    intro i sessions tracks warnings out h hin
    cases hd with
    | error e =>
      rw [show diarizeSegments ops config embed clock session_id threshold rm ws we
          (Except.error e :: rest) i sessions tracks warnings =
          diarizeSegments ops config embed clock session_id threshold rm ws we
          rest (i + 1) sessions tracks (warnings ++ [("segment skipped: " ++ e)]) from rfl] at h
      exact ih _ _ _ _ _ h hin
    | ok seg =>
      by_cases hempty : seg.samples = []
      · simp only [diarizeSegments, if_pos hempty] at h
        exact ih _ _ _ _ _ h hin
      · cases hemb : embed seg.samples with
        | error e =>
          simp only [diarizeSegments, if_neg hempty, hemb] at h
          cases h
        | ok embedding =>
          simp only [diarizeSegments, if_neg hempty, hemb] at h
          by_cases hr : (resolveSpeaker ops config.max_speakers rm
              config.session_ttl_ms (clock i) session_id embedding threshold sessions).1 = 0
          · rw [if_pos hr] at h
            exact ih _ _ _ _ _ h hin
          · rw [if_neg hr] at h
            refine ih _ _ _ _ _ h ?_
            intro t ht
            rcases List.mem_append.mp ht with ht2 | ht2
            · exact hin t ht2
            · rcases List.mem_singleton.mp ht2 with rfl
              exact ⟨_, hr, rfl⟩

theorem diarizeWithSamples_ok_elim (ops : ClusteringOps) (config : Config)
    (gs : List ℤ → ℕ → Except String (List (Except String Segment)))
    (embed : List ℤ → Except String (List ℚ)) (clock : ℕ → ℤ)
    (sessions : Sessions) (session_id : String) (sample_rate : ℕ)
    (threshold : ℚ) (rm : Option ℕ) (start_end_ms : Option (ℤ × ℤ))
    (samples : List ℤ) (resp : DiarizeResponse) (sessions1 : Sessions)
    (h : diarizeWithSamples ops config gs embed clock sessions session_id
      sample_rate threshold rm start_end_ms samples = Except.ok (resp, sessions1)) :
    ∃ ws we segs tracks warnings,
      gs samples sample_rate = Except.ok segs ∧
      diarizeSegments ops config embed clock session_id threshold rm ws we
        segs 0 sessions [] [] = Except.ok (tracks, warnings, sessions1) ∧
      resp = ⟨session_id, merge_adjacent_tracks tracks, warnings⟩ := by
  have hrun : ∀ (ws we : ℤ),
      (match gs samples sample_rate with
        | Except.error e => Except.error (AppError.internal ("segmentation failed: " ++ e))
        | Except.ok segs =>
          match diarizeSegments ops config embed clock session_id threshold rm
              ws we segs 0 sessions [] [] with
          | Except.error e => Except.error e
          | Except.ok (tracks, warnings, sessions2) =>
            Except.ok
              ({ session_id := session_id
                 tracks := merge_adjacent_tracks tracks
                 warnings := warnings }, sessions2) :
        Except AppError (DiarizeResponse × Sessions)) = Except.ok (resp, sessions1) →
      ∃ segs tracks warnings,
        gs samples sample_rate = Except.ok segs ∧
        diarizeSegments ops config embed clock session_id threshold rm ws we
          segs 0 sessions [] [] = Except.ok (tracks, warnings, sessions1) ∧
        resp = ⟨session_id, merge_adjacent_tracks tracks, warnings⟩ := by
    intro ws we hrun
    cases hgs : gs samples sample_rate with
    | error e =>
      simp only [hgs] at hrun
      cases hrun
    | ok segs =>
      simp only [hgs] at hrun
      cases hds : diarizeSegments ops config embed clock session_id threshold rm
          ws we segs 0 sessions [] [] with
      | error e2 =>
        simp only [hds] at hrun
        cases hrun
      | ok out =>
        obtain ⟨tracks, warnings, sessions2⟩ := out
        simp only [hds] at hrun
        cases hrun
        exact ⟨segs, tracks, warnings, rfl, hds, rfl⟩
  cases hse : start_end_ms with
  | none =>
    rw [hse] at h
    simp only [diarizeWithSamples] at h
    obtain ⟨segs, tracks, warnings, h1, h2, h3⟩ := hrun _ _ h
    exact ⟨_, _, segs, tracks, warnings, h1, h2, h3⟩
  | some p =>
    obtain ⟨s, e⟩ := p
    rw [hse] at h
    by_cases hb : 0 ≤ s ∧ s ≤ e
    · simp only [diarizeWithSamples, if_pos hb] at h
      obtain ⟨segs, tracks, warnings, h1, h2, h3⟩ := hrun _ _ h
      exact ⟨_, _, segs, tracks, warnings, h1, h2, h3⟩
    · simp only [diarizeWithSamples, if_neg hb] at h
      cases h

/-- C4: (i) the per-segment speaker label is
`search_speaker(embedding, threshold)` when it finds a match, otherwise
`get_best_speaker_match(embedding).unwrap_or(0)`; (ii) a segment whose
resolved label is the sentinel `0` contributes no track and appends exactly
one warning string; (iii) consequently no track of any successful response
carries the sentinel speaker `"edge_spk_0"`. -/
theorem C4_sentinel_speaker :
    (∀ (ops : ClusteringOps) (cm : ℕ) (rm : Option ℕ) (ttl now : ℤ)
      (key : String) (emb : List ℚ) (θ : ℚ) (sessions : Sessions),
      (resolveSpeaker ops cm rm ttl now key emb θ sessions).1 =
        (match ops.search (touchSession cm rm ttl now key sessions).1.manager emb θ with
          | some id => id
          | none =>
            ((ops.bestMatch (touchSession cm rm ttl now key sessions).1.manager emb).1).getD 0)) ∧
    (∀ (ops : ClusteringOps) (config : Config)
      (embed : List ℤ → Except String (List ℚ)) (clock : ℕ → ℤ)
      (session_id : String) (threshold : ℚ) (rm : Option ℕ) (ws we : ℤ)
      (seg : Segment) (rest : List (Except String Segment)) (i : ℕ)
      (sessions : Sessions) (tracks : List Track) (warnings : List String)
      (emb : List ℚ),
      seg.samples ≠ [] →
      embed seg.samples = Except.ok emb →
      (resolveSpeaker ops config.max_speakers rm config.session_ttl_ms
        (clock i) session_id emb threshold sessions).1 = 0 →
      diarizeSegments ops config embed clock session_id threshold rm ws we
          (Except.ok seg :: rest) i sessions tracks warnings =
        diarizeSegments ops config embed clock session_id threshold rm ws we
          rest (i + 1)
          (resolveSpeaker ops config.max_speakers rm config.session_ttl_ms
            (clock i) session_id emb threshold sessions).2
          tracks (warnings ++ [("speaker assignment returned 0, segment dropped")])) ∧
    (∀ (ops : ClusteringOps) (config : Config)
      (gs : List ℤ → ℕ → Except String (List (Except String Segment)))
      (embed : List ℤ → Except String (List ℚ)) (clock : ℕ → ℤ)
      (sessions : Sessions) (req : DiarizeRequest) (resp : DiarizeResponse)
      (sessions1 : Sessions),
      diarize ops config gs embed clock sessions req = Except.ok (resp, sessions1) →
      ∀ t ∈ resp.tracks, t.speaker_id ≠ "edge_spk_0") := by
  refine ⟨?_, ?_, ?_⟩
  · intro ops cm rm ttl now key emb θ sessions
    cases hs : ops.search (touchSession cm rm ttl now key sessions).1.manager emb θ with
    | some id => simp [resolveSpeaker, hs]
    | none => simp [resolveSpeaker, hs]
  · intro ops config embed clock session_id threshold rm ws we seg rest i sessions
      tracks warnings emb hne hemb hr
    simp only [diarizeSegments, if_neg hne, hemb, hr, if_pos]
  · intro ops config gs embed clock sessions req resp sessions1 h
    by_cases h1 : rustTrim req.session_id = ""
    · rw [diarize_trim_empty ops config gs embed clock sessions req h1] at h
      cases h
    · by_cases h2 : req.sample_rate.getD 16000 = 0
      · rw [diarize_zero_rate ops config gs embed clock sessions req h1 h2] at h
        cases h
      · cases hdec : decode_pcm_s16le req.content_b64 with
        | error er =>
          rw [diarize_decode_error ops config gs embed clock sessions req er h1 h2 hdec] at h
          cases h
        | ok samples =>
          rw [diarize_decode_ok ops config gs embed clock sessions req samples h1 h2 hdec] at h
          obtain ⟨ws, we, segs, tracks, warnings, hgs, hds, hresp⟩ :=
            diarizeWithSamples_ok_elim ops config gs embed clock sessions
              (rustTrim req.session_id) (req.sample_rate.getD 16000)
              (clampQ (req.threshold.getD config.threshold) 0 1)
              req.max_speakers req.start_end_ms samples resp sessions1 h
          subst hresp
          intro t ht
          have hall := diarizeSegments_ok_tracks ops config embed clock
            (rustTrim req.session_id)
            (clampQ (req.threshold.getD config.threshold) 0 1)
            req.max_speakers ws we segs 0 sessions [] [] _ hds
            (by intro t2 ht2; cases ht2)
          obtain ⟨id, hid0, hid⟩ :=
            merge_adjacent_tracks_speakers
              (fun sp => ∃ id, id ≠ 0 ∧ sp = speakerTag id) tracks
              (fun t2 ht2 => hall t2 ht2) t ht
          rw [hid]
          exact speakerTag_ne_sentinel id hid0

/-- C4, witness: with a clustering capability whose search finds nothing and
whose best-match returns nothing, a nonempty segment resolves to `0` and the
segment-processing step drops the segment with exactly one warning. -/
theorem C4_sentinel_speaker_witness :
    (⟨3/10, 5/10, [1]⟩ : Segment).samples ≠ [] ∧
    (fun _ : List ℤ => (Except.ok [1] : Except String (List ℚ)))
        (⟨3/10, 5/10, [1]⟩ : Segment).samples =
      Except.ok ([1] : List ℚ) ∧
    (resolveSpeaker ⟨fun _ _ _ => none, fun m _ => (none, m.speakers)⟩
      (⟨8, 1/2, 3600000⟩ : Config).max_speakers none
      (⟨8, 1/2, 3600000⟩ : Config).session_ttl_ms ((fun _ => 0) 0) "s1" [1] (1/2) []).1 = 0 ∧
    diarizeSegments ⟨fun _ _ _ => none, fun m _ => (none, m.speakers)⟩ ⟨8, 1/2, 3600000⟩
        (fun _ => Except.ok ([1] : List ℚ)) (fun _ => 0) "s1" (1/2) none 0 1000
        [Except.ok ⟨3/10, 5/10, [1]⟩] 0 [] [] [] =
      diarizeSegments ⟨fun _ _ _ => none, fun m _ => (none, m.speakers)⟩ ⟨8, 1/2, 3600000⟩
        (fun _ => Except.ok ([1] : List ℚ)) (fun _ => 0) "s1" (1/2) none 0 1000
        [] 1
        (resolveSpeaker ⟨fun _ _ _ => none, fun m _ => (none, m.speakers)⟩
          (⟨8, 1/2, 3600000⟩ : Config).max_speakers none
          (⟨8, 1/2, 3600000⟩ : Config).session_ttl_ms ((fun _ => 0) 0) "s1" [1] (1/2) []).2
        [] ([] ++ [("speaker assignment returned 0, segment dropped")]) :=
  ⟨by simp, rfl, rfl,
   C4_sentinel_speaker.2.1 ⟨fun _ _ _ => none, fun m _ => (none, m.speakers)⟩
     ⟨8, 1/2, 3600000⟩ (fun _ => Except.ok ([1] : List ℚ)) (fun _ => 0) "s1" (1/2)
     none 0 1000 ⟨3/10, 5/10, [1]⟩ [] 0 [] [] [] [1] (by simp) rfl rfl⟩

/-! ## Concrete end-to-end scenario -/

/-- C9: a decoded payload of 16000 samples (32000 PCM bytes) at the default
16000 Hz rate with no `start_end_ms` gets the default window `[0, 1000]`,
and a single segment `[0.1, 0.4]` resolving to a non-sentinel speaker `k`
yields exactly the one track
`(speakerTag k, start 100, end 400, duration 300, local 100..400)` with no
warnings.  (By C5, a 32000-byte payload decodes to exactly 16000 samples;
`sample_rate = 16000` is the value `diarize` substitutes for an absent
`sample_rate` field.) -/
theorem C9_default_window_scenario (ops : ClusteringOps) (config : Config)
    (gs : List ℤ → ℕ → Except String (List (Except String Segment)))
    (embed : List ℤ → Except String (List ℚ)) (clock : ℕ → ℤ)
    (sessions : Sessions) (session_id : String) (θ : ℚ) (rm : Option ℕ)
    (samples seg_samples : List ℤ) (emb : List ℚ) (k : ℕ)
    (hlen : samples.length = 16000)
    (hgs : gs samples 16000 = Except.ok [Except.ok ⟨1/10, 4/10, seg_samples⟩])
    (hseg : seg_samples ≠ [])
    (hemb : embed seg_samples = Except.ok emb)
    (hk : (resolveSpeaker ops config.max_speakers rm config.session_ttl_ms
      (clock 0) session_id emb θ sessions).1 = k)
    (hk0 : k ≠ 0) :
    ((0 : ℤ), max (rustRound (((samples.length : ℚ) / ((16000 : ℕ) : ℚ)) * 1000)) 0) =
      ((0 : ℤ), (1000 : ℤ)) ∧
    diarizeWithSamples ops config gs embed clock sessions session_id 16000 θ rm
        none samples =
      Except.ok (⟨session_id, [⟨speakerTag k, 100, 400, 300, 100, 400⟩], []⟩,
        (resolveSpeaker ops config.max_speakers rm config.session_ttl_ms
          (clock 0) session_id emb θ sessions).2) := by
  have hw : rustRound (((samples.length : ℚ) / ((16000 : ℕ) : ℚ)) * 1000) = 1000 := by
    rw [hlen]
    norm_num [rustRound]
  refine ⟨by rw [hw]; norm_num, ?_⟩
  have hmap : map_segment_to_track ⟨1/10, 4/10, seg_samples⟩ 0 1000 k =
      ⟨speakerTag k, 100, 400, 300, 100, 400⟩ := by
    simp only [map_segment_to_track, rustRound, Track.mk.injEq]
    norm_num
  have hmerge : merge_adjacent_tracks [(⟨speakerTag k, 100, 400, 300, 100, 400⟩ : Track)] =
      [⟨speakerTag k, 100, 400, 300, 100, 400⟩] := by
    simp [merge_adjacent_tracks]
  simp only [diarizeWithSamples, hw, hgs]
  rw [show ((1000 : ℤ) ⊔ 0) = 1000 from by omega]
  have hshow : (⟨1/10, 4/10, seg_samples⟩ : Segment).samples = seg_samples := rfl
  simp only [diarizeSegments, hshow, if_neg hseg, hemb, hk]
  rw [if_neg hk0]
  simp only [diarizeSegments, List.nil_append]
  rw [hmap, hmerge]

/-- C9, witness: the scenario instantiated with 16000 zero samples, a
clustering capability whose search immediately returns speaker 1, and
trivial segmentation/embedding oracles. -/
theorem C9_default_window_scenario_witness :
    (List.replicate 16000 (0 : ℤ)).length = 16000 ∧
    (((0 : ℤ), max (rustRound ((((List.replicate 16000 (0 : ℤ)).length : ℚ) /
        ((16000 : ℕ) : ℚ)) * 1000)) 0) = ((0 : ℤ), (1000 : ℤ)) ∧
    diarizeWithSamples ⟨fun _ _ _ => some 1, fun m _ => (none, m.speakers)⟩
        ⟨8, 1/2, 3600000⟩ (fun _ _ => Except.ok [Except.ok ⟨1/10, 4/10, [1]⟩])
        (fun _ => Except.ok ([1] : List ℚ)) (fun _ => 0) [] "s1" 16000 (1/2) none
        none (List.replicate 16000 (0 : ℤ)) =
      Except.ok (⟨"s1", [⟨speakerTag 1, 100, 400, 300, 100, 400⟩], []⟩,
        (resolveSpeaker ⟨fun _ _ _ => some 1, fun m _ => (none, m.speakers)⟩
          (⟨8, 1/2, 3600000⟩ : Config).max_speakers none
          (⟨8, 1/2, 3600000⟩ : Config).session_ttl_ms ((fun _ : ℕ => (0 : ℤ)) 0)
          "s1" [1] (1/2) []).2)) :=
  ⟨List.length_replicate 16000 0,
   C9_default_window_scenario ⟨fun _ _ _ => some 1, fun m _ => (none, m.speakers)⟩
     ⟨8, 1/2, 3600000⟩ (fun _ _ => Except.ok [Except.ok ⟨1/10, 4/10, [1]⟩])
     (fun _ => Except.ok ([1] : List ℚ)) (fun _ => 0) [] "s1" (1/2) none
     (List.replicate 16000 (0 : ℤ)) [1] [1] 1 (List.length_replicate 16000 0) rfl
     (by decide) rfl rfl (by decide)⟩

end PyannoteServer
